import Mathlib

/-!
Shallow embedding of `src/ptt_crawler.py` (a PTT board crawler) and proofs
about its pure core: popularity normalization and filtering
(`process_recommendations`), pagination arithmetic (`get_latest_index`),
heuristic content extraction (`get_structured_content`) and the incremental
persister (`crawl_ptt_post_content`).

Machine integers in the source are arbitrary-precision Python ints, so they
are embedded as `Int`/`Nat`.  Network fetches and HTML parsing are external
collaborators; they enter the embedding as explicit oracle parameters
(`Option`-valued fetch results, an abstract document-tree type `Node`).
-/

namespace PttCrawler

/-- One listing row produced by `crawl_page`: title, date, absolute link and
the raw popularity token (`nrec` column). -/
structure ListingRecord where
  title : String
  date : String
  link : String
  nrec : String
deriving DecidableEq

/-- Digits-to-number accumulator: the value of a run of ASCII decimal digits,
as Python's `int()` computes it on the digit group of a regex match. -/
def natOfDigits (ds : List Char) : Nat :=
  ds.foldl (fun a c => 10 * a + (c.toNat - 48)) 0

/-- Integer parsing as applied by `pd.to_numeric(..., errors="coerce")` to the
`nrec` tokens: an optional sign followed by a nonempty digit run parses to its
value, anything else coerces to `none` (NaN).  The embedding is restricted to
integer text, which is the shape of every popularity token. -/
def parseIntChars : List Char → Option Int
  | [] => none
  | '-' :: ds => if ds ≠ [] ∧ ds.all Char.isDigit then some (-(natOfDigits ds : Int)) else none
  | '+' :: ds => if ds ≠ [] ∧ ds.all Char.isDigit then some ((natOfDigits ds : Int)) else none
  | c :: ds => if (c :: ds).all Char.isDigit then some ((natOfDigits (c :: ds) : Int)) else none

/-- Popularity normalization from `process_recommendations` line 132:
`pd.to_numeric(df["nrec"].replace({"爆": "100", "X": "-1"}), errors="coerce").fillna(0)`.
The sentinel `"爆"` is replaced by `"100"`, `"X"` by `"-1"`, then numeric
coercion is applied and unparseable tokens fall back to `0`. -/
def normalize (s : String) : Int :=
  if s = "爆" then 100
  else if s = "X" then -1
  else (parseIntChars s.toList).getD 0

/-- The `threshold = threshold or CONFIG["DEFAULT_THRESHOLD"]` line: a missing
threshold, and also the falsy integer `0`, are replaced by the default `40`. -/
def effectiveThreshold (t : Option Int) : Int :=
  match t with
  | none => 40
  | some v => if v = 0 then 40 else v

/-- `process_recommendations(df, threshold)`: keep, in input order, the rows
whose normalized popularity is at least the effective threshold
(`df[numeric >= threshold]`). -/
def process_recommendations (df : List ListingRecord) (threshold : Option Int) :
    List ListingRecord :=
  df.filter (fun r => decide (effectiveThreshold threshold ≤ normalize r.nrec))

/-- C1: the popularity normalization maps the maximum sentinel `"爆"` to 100,
the controversial sentinel `"X"` to -1, numeric text such as `"37"` to its
integer value, and any other token — including `""` and `"abc"`, and in
general any token that fails integer coercion — to 0. -/
theorem normalize_spec :
    normalize "爆" = 100 ∧ normalize "X" = -1 ∧ normalize "37" = 37 ∧
    normalize "" = 0 ∧ normalize "abc" = 0 ∧
    (∀ s : String, s ≠ "爆" → s ≠ "X" → parseIntChars s.toList = none → normalize s = 0) := by
  refine ⟨by decide, by decide, by decide, by decide, by decide, ?_⟩
  intro s h1 h2 h3
  unfold normalize
  rw [if_neg h1, if_neg h2, h3]
  rfl

/-- Witness for C1: the general "anything unparseable maps to 0" clause at the
concrete token `"xyz"`. -/
theorem normalize_spec_witness : normalize "xyz" = 0 :=
  normalize_spec.2.2.2.2.2 "xyz" (by decide) (by decide) (by decide)

/-- C2 (amended): for every listing collection and every NONZERO threshold `t`
passed explicitly, the filter returns exactly the records whose normalized
score is at least `t`, as a stable sublist of the input (no reordering, no
duplication); determinism and freedom from side effects are inherent in the
embedding as a pure function.  At `t = 0` the `threshold or 40` idiom
substitutes the default, so the claim as stated fails there. -/
theorem filter_exact_stable (L : List ListingRecord) (t : Int) (ht : t ≠ 0) :
    process_recommendations L (some t)
        = L.filter (fun r => decide (t ≤ normalize r.nrec)) ∧
    (∀ r ∈ process_recommendations L (some t), t ≤ normalize r.nrec) ∧
    (∀ r ∈ L, t ≤ normalize r.nrec → r ∈ process_recommendations L (some t)) ∧
    List.Sublist (process_recommendations L (some t)) L := by
  have heff : effectiveThreshold (some t) = t := by
    simp [effectiveThreshold, ht]
  have hmain : process_recommendations L (some t)
      = L.filter (fun r => decide (t ≤ normalize r.nrec)) := by
    simp [process_recommendations, heff]
  refine ⟨hmain, ?_, ?_, ?_⟩
  · intro r hr
    rw [hmain] at hr
    simpa using (List.mem_filter.mp hr).2
  · intro r hr hscore
    rw [hmain]
    exact List.mem_filter.mpr ⟨hr, by simpa using hscore⟩
  · exact List.filter_sublist L

/-- Witness for C2's amended theorem at threshold 40 on a one-record list. -/
theorem filter_exact_stable_witness :
    (⟨"t", "d", "l", "55"⟩ : ListingRecord)
      ∈ process_recommendations [⟨"t", "d", "l", "55"⟩] (some 40) :=
  (filter_exact_stable [⟨"t", "d", "l", "55"⟩] 40 (by decide)).2.2.1
    ⟨"t", "d", "l", "55"⟩ (by decide) (by decide)

/-- Counterexample for C2 as stated: at the explicit threshold 0 the record
with token `"10"` has normalized score 10 ≥ 0, yet the filter drops it,
because the falsy threshold 0 is silently replaced by the default 40. -/
theorem filter_zero_threshold_not_exact :
    process_recommendations [⟨"t", "d", "l", "10"⟩] (some 0) = [] ∧
    (0 : Int) ≤ normalize "10" ∧
    ([⟨"t", "d", "l", "10"⟩] : List ListingRecord).filter
        (fun r => decide ((0 : Int) ≤ normalize r.nrec))
      = [⟨"t", "d", "l", "10"⟩] := by
  refine ⟨by decide, by decide, by decide⟩

/-- C8: lowering the threshold from 40 to 0 never removes a selected record —
every record selected at threshold 40 is also selected at threshold 0.  (With
the `threshold or 40` idiom both calls in fact filter at 40.) -/
theorem threshold_lowering_superset (L : List ListingRecord) (r : ListingRecord)
    (h : r ∈ process_recommendations L (some 40)) :
    r ∈ process_recommendations L (some 0) := by
  have : process_recommendations L (some 0) = process_recommendations L (some 40) := by
    simp [process_recommendations, effectiveThreshold]
  rw [this]
  exact h

/-- Witness for C8 on a one-record list whose token is the maximum sentinel. -/
theorem threshold_lowering_superset_witness :
    (⟨"t", "d", "l", "爆"⟩ : ListingRecord)
      ∈ process_recommendations [⟨"t", "d", "l", "爆"⟩] (some 0) :=
  threshold_lowering_superset [⟨"t", "d", "l", "爆"⟩] ⟨"t", "d", "l", "爆"⟩ (by decide)

/-- C9: an explicit threshold of 0 is falsy in Python, so
`threshold or CONFIG["DEFAULT_THRESHOLD"]` substitutes the configured default
40: filtering at 0 returns the same result as filtering at 40, and in
particular not the whole input collection (a record with score 10 is
dropped). -/
theorem zero_threshold_uses_default (L : List ListingRecord) :
    process_recommendations L (some 0) = process_recommendations L (some 40) ∧
    process_recommendations [⟨"t", "d", "l", "10"⟩] (some 0) = [] := by
  constructor
  · simp [process_recommendations, effectiveThreshold]
  · decide

/-- Outcome of one call into the HTTP transport collaborator inside
`safe_request`: either the library raised an exception, or it completed and
produced a response with a status code and a body. -/
inductive TransportOutcome where
  | raised (msg : String)
  | completed (status : Nat) (body : String)
deriving DecidableEq

/-- A transport response as `safe_request` returns it: status code and
decoded text. -/
structure Response where
  status : Nat
  body : String
deriving DecidableEq

/-- Truthiness of a `requests.Response`: `__bool__` is `ok`, i.e. the status
code is below 400. -/
def Response.isOk (r : Response) : Bool := decide (r.status < 400)

/-- `safe_request`: the whole body is wrapped in `try/except Exception`; a
raised transport error becomes `None`, a completed response is returned as
is.  The embedding is a total function, so nothing ever escapes to the
caller. -/
def safe_request (o : TransportOutcome) : Option Response :=
  match o with
  | TransportOutcome.raised _ => none
  | TransportOutcome.completed st b => some ⟨st, b⟩

/-- The absence test every caller applies to a fetch result (`if not res`):
absent means `None`, or a falsy response, i.e. one with status ≥ 400. -/
def resTruthy : Option Response → Bool
  | none => false
  | some r => r.isOk

/-- C7: the Fetcher converts any transport failure into an absent result
rather than raising: a raised exception (DNS, timeout, connection reset, TLS)
yields `none`; a completed response with an unhandled non-2xx status (≥ 400 —
1xx/3xx are consumed inside the transport collaborator by continue/redirect
handling) is falsy, which is the absence signal every caller tests with
`if not res`; and anything the caller sees as present is a sub-400 response. -/
theorem fetcher_absorbs_failures :
    (∀ m, safe_request (TransportOutcome.raised m) = none) ∧
    (∀ st b, 400 ≤ st →
      resTruthy (safe_request (TransportOutcome.completed st b)) = false) ∧
    (∀ o, resTruthy (safe_request o) = true →
      ∃ st b, o = TransportOutcome.completed st b ∧ st < 400) := by
  refine ⟨fun m => rfl, ?_, ?_⟩
  · intro st b h
    simp [safe_request, resTruthy, Response.isOk]
    omega
  · intro o h
    match o with
    | TransportOutcome.raised m => simp [safe_request, resTruthy] at h
    | TransportOutcome.completed st b =>
      refine ⟨st, b, rfl, ?_⟩
      simpa [safe_request, resTruthy, Response.isOk] using h

/-- Witness for C7 at a concrete 404 response. -/
theorem fetcher_absorbs_failures_witness :
    resTruthy (safe_request (TransportOutcome.completed 404 "not found")) = false :=
  fetcher_absorbs_failures.2.1 404 "not found" (by decide)

/-- One attempted match of the pattern `index(\d+)\.html` anchored at the head
of the character list, as the regex engine tries it at each position: the
literal `index`, then a maximal nonempty digit run, then the literal
`.html`.  (Backtracking the greedy `\d+` can never help, because a shorter
digit run is followed by a digit, not by `.`.) -/
def matchIndexAt (s : List Char) : Option Nat :=
  if ("index".toList).isPrefixOf s then
    let r := s.drop 5
    let ds := r.takeWhile Char.isDigit
    let r2 := r.dropWhile Char.isDigit
    if ds ≠ [] ∧ (".html".toList).isPrefixOf r2 then some (natOfDigits ds) else none
  else none

/-- `re.search(r"index(\d+)\.html", href)`: the leftmost position at which
the pattern matches, or `none`. -/
def searchIndex : List Char → Option Nat
  | [] => none
  | c :: rest =>
    match matchIndexAt (c :: rest) with
    | some k => some k
    | none => searchIndex rest

/-- `get_latest_index`: the fetched index page is abstracted to what the
function inspects — `none` when the page is unreachable (fetch failed or the
response is falsy), `some none` when the second paging-control anchor is
missing, `some (some href)` when it is present with link target `href`.  The
matched page number plus one is returned, `none` on a failed match. -/
def get_latest_index (page : Option (Option String)) : Option Nat :=
  match page with
  | none => none
  | some none => none
  | some (some href) =>
    match searchIndex href.toList with
    | some k => some (k + 1)
    | none => none

theorem takeWhile_digit_block (ds t : List Char) (h : ∀ c ∈ ds, c.isDigit = true) :
    (ds ++ '.' :: t).takeWhile Char.isDigit = ds ∧
    (ds ++ '.' :: t).dropWhile Char.isDigit = '.' :: t := by
  induction ds with
  | nil => simp [List.takeWhile, List.dropWhile]
  | cons c cs ih =>
    have hc : c.isDigit = true := h c (List.mem_cons_self c cs)
    have ihs := ih (fun x hx => h x (List.mem_cons_of_mem c hx))
    simp [List.takeWhile, List.dropWhile, hc, ihs.1, ihs.2]

theorem matchIndexAt_exact (ds suf : List Char) (hne : ds ≠ [])
    (hd : ∀ c ∈ ds, c.isDigit = true) :
    matchIndexAt ("index".toList ++ ds ++ ".html".toList ++ suf)
      = some (natOfDigits ds) := by
  have hts := takeWhile_digit_block ds ("html".toList ++ suf) hd
  have hshape : "index".toList ++ ds ++ ".html".toList ++ suf
      = 'i' :: 'n' :: 'd' :: 'e' :: 'x' :: (ds ++ '.' :: ("html".toList ++ suf)) := by
    simp [List.append_assoc]
  rw [matchIndexAt, hshape]
  rw [if_pos (by simp [List.isPrefixOf])]
  simp only [List.drop]
  rw [show ((ds ++ '.' :: ("html".toList ++ suf)).takeWhile Char.isDigit) = ds from hts.1,
      show ((ds ++ '.' :: ("html".toList ++ suf)).dropWhile Char.isDigit)
        = '.' :: ("html".toList ++ suf) from hts.2]
  rw [if_pos ⟨hne, by simp [List.isPrefixOf]⟩]

theorem searchIndex_skip (pre rest : List Char)
    (h : ∀ i, i < pre.length →
      ("index".toList).isPrefixOf ((pre ++ rest).drop i) = false) :
    searchIndex (pre ++ rest) = searchIndex rest := by
  induction pre with
  | nil => rfl
  | cons c cs ih =>
    have h0 : ("index".toList).isPrefixOf (c :: (cs ++ rest)) = false := by
      have := h 0 (by simp)
      simpa using this
    have hmatch : matchIndexAt (c :: (cs ++ rest)) = none := by
      rw [matchIndexAt, h0]
      simp
    have hrec : searchIndex (cs ++ rest) = searchIndex rest := by
      refine ih ?_
      intro i hi
      have := h (i + 1) (by simpa using Nat.succ_lt_succ hi)
      simpa using this
    calc searchIndex ((c :: cs) ++ rest)
        = searchIndex (c :: (cs ++ rest)) := by simp
      _ = searchIndex (cs ++ rest) := by rw [searchIndex, hmatch]
      _ = searchIndex rest := hrec

/-- C4 (amended): when the second paging-control anchor's link target contains
the pattern `index(\d+).html`, the resolver returns the number at the
LEFTMOST match plus one (for the real-world targets whose single, trailing
match is `index123.html` this yields 124); it returns an absent result when
the page is unreachable, when the paging control is missing, and when the
target never matches the pattern.  (The claim's "ends in index<k>.html"
phrasing fails when an earlier match precedes the trailing one.) -/
theorem get_latest_index_spec :
    (∀ pre ds suf k,
        ds ≠ [] →
        (∀ c ∈ ds, c.isDigit = true) →
        (∀ i, i < pre.length →
          ("index".toList).isPrefixOf
            ((pre ++ ("index".toList ++ ds ++ ".html".toList ++ suf)).drop i) = false) →
        natOfDigits ds = k →
        get_latest_index (some (some (String.mk
          (pre ++ ("index".toList ++ ds ++ ".html".toList ++ suf))))) = some (k + 1)) ∧
    get_latest_index none = none ∧
    get_latest_index (some none) = none ∧
    (∀ href, searchIndex href.toList = none →
      get_latest_index (some (some href)) = none) := by
  refine ⟨?_, rfl, rfl, ?_⟩
  · intro pre ds suf k hne hd hpre hk
    have hlist : (String.mk (pre ++ ("index".toList ++ ds ++ ".html".toList ++ suf))).toList
        = pre ++ ("index".toList ++ ds ++ ".html".toList ++ suf) := rfl
    have hsearch : searchIndex (pre ++ ("index".toList ++ ds ++ ".html".toList ++ suf))
        = some k := by
      rw [searchIndex_skip pre _ hpre]
      have hmatch := matchIndexAt_exact ds suf hne hd
      have hcons : "index".toList ++ ds ++ ".html".toList ++ suf
          = 'i' :: ("ndex".toList ++ ds ++ ".html".toList ++ suf) := rfl
      rw [hcons]
      simp only [searchIndex]
      rw [← hcons, hmatch, hk]
    rw [get_latest_index, hlist, hsearch]
  · intro href h
    rw [get_latest_index, h]

/-- Witness for C4's amended theorem: the board index page's previous-page
anchor `/bbs/stock/index123.html` resolves to frontier index 124. -/
theorem get_latest_index_spec_witness :
    get_latest_index (some (some (String.mk
      ("/bbs/stock/".toList ++ ("index".toList ++ "123".toList ++ ".html".toList ++ [])))))
      = some (123 + 1) :=
  get_latest_index_spec.1 "/bbs/stock/".toList "123".toList [] 123
    (by decide) (by decide) (by decide) (by decide)

/-- Counterexample for C4 as stated: the link target
`"index1.htmlindex2.html"` ends in `index2.html`, so the claim demands the
resolver return 2 + 1 = 3; the regex search takes the leftmost match
`index1.html` and the resolver returns 2. -/
theorem get_latest_index_not_trailing :
    ("index1.htmlindex2.html").toList
      = ("index1.html").toList ++ ("index2.html").toList ∧
    get_latest_index (some (some "index1.htmlindex2.html")) = some 2 := by
  constructor
  · decide
  · decide

/-- Abstract document tree produced by the HTML-parsing collaborator: a text
node, or an element with a tag name, an optional `href` attribute and a list
of children in document order. -/
inductive Node where
  | textNode (s : String)
  | elem (tag : String) (href : Option String) (children : List Node)

/-- Substring containment, Python's `tok in line`: the pattern is a prefix of
some suffix of the subject. -/
def containsTok (s pat : List Char) : Bool :=
  match s with
  | [] => pat.isEmpty
  | c :: rest => pat.isPrefixOf (c :: rest) || containsTok rest pat

/-- `tok in line` on strings. -/
def hasTok (line tok : String) : Bool := containsTok line.toList tok.toList

/-- Python's `str.strip()`: drop the whitespace run at both ends. -/
def pyStrip (s : String) : String :=
  String.mk (((s.toList.dropWhile Char.isWhitespace).reverse.dropWhile
    Char.isWhitespace).reverse)

/-- The effect of `re.sub(r"^.*?TOK[:,：]\s*", "", line)`: at the leftmost
position where the marker occurs immediately followed by one of the three
separator characters, drop everything through the separator and the following
whitespace run; `none` when the pattern never matches. -/
def markerCut (marker : List Char) : List Char → Option (List Char)
  | [] => none
  | c :: rest =>
    if marker.isPrefixOf (c :: rest) then
      match (c :: rest).drop marker.length with
      | p :: r2 =>
        if p = ':' ∨ p = ',' ∨ p = '：' then some (r2.dropWhile Char.isWhitespace)
        else markerCut marker rest
      | [] => markerCut marker rest
    else markerCut marker rest

/-- The title/source extraction on a marker line:
`re.sub(r"^.*?TOK[:,：]\s*", "", line).strip()` — the line itself, stripped,
when the separator pattern never matches. -/
def extractField (marker line : String) : String :=
  pyStrip (String.mk ((markerCut marker.toList line.toList).getD line.toList))

/-- The single classification pass of `get_structured_content`: each line is
a title line (contains `標題`), else a source line (contains `作者`), else a
provisional body line kept in order; later title/source lines overwrite
earlier ones.  Returns `(title, source, bodyLines)`. -/
def classifyGo : String → String → List String → List String →
    String × String × List String
  | t, s, b, [] => (t, s, b)
  | t, s, b, line :: rest =>
    if hasTok line "標題" then classifyGo (extractField "標題" line) s b rest
    else if hasTok line "作者" then classifyGo t (extractField "作者" line) b rest
    else classifyGo t s (b ++ [line]) rest

/-- The classification pass started from the empty accumulators. -/
def classifyLines (lines : List String) : String × String × List String :=
  classifyGo "" "" [] lines

/-- The `content_started` loop over the provisional body lines: while content
has not started, lines containing the `看板` (Board) or `時間` (Time) tokens
are skipped; the first line containing neither starts the content, and from
then on every line is kept. -/
def cleanBodyGo : Bool → List String → List String
  | _, [] => []
  | started, line :: rest =>
    if started then line :: cleanBodyGo true rest
    else if hasTok line "看板" || hasTok line "時間" then cleanBodyGo false rest
    else line :: cleanBodyGo true rest

/-- The body cleanup started in the not-yet-started state. -/
def cleanBody (bodyLines : List String) : List String :=
  cleanBodyGo false bodyLines

/-- The structured result of `get_structured_content`. -/
structure Structured where
  title : String
  source : String
  content : String
  urls : List String

/-- The pure tail of `get_structured_content` applied to the cleaned line
list and the collected link targets: classify the lines, clean the body, and
join it with single newlines (`"\n".join(clean_content).strip()`). -/
def structureLines (lines : List String) (urls : List String) : Structured :=
  { title := (classifyLines lines).1
    source := (classifyLines lines).2.1
    urls := urls
    content := pyStrip (String.intercalate "\n" (cleanBody (classifyLines lines).2.2)) }

mutual

/-- All descendant text-node strings of a node in document order, as
`get_text` visits them. -/
def textsOf : Node → List String
  | Node.textNode s => [s]
  | Node.elem _ _ cs => textsOfList cs

/-- `textsOf` over a child list. -/
def textsOfList : List Node → List String
  | [] => []
  | n :: t => textsOf n ++ textsOfList t

end

mutual

/-- All `href` targets of descendant-or-self anchors carrying an `href`, in
document order — `find_all("a", href=True)` rooted at a node. -/
def anchorsOf : Node → List String
  | Node.textNode _ => []
  | Node.elem tag href cs =>
    (match href with
     | some h => if tag = "a" then [h] else []
     | none => []) ++ anchorsOfList cs

/-- `anchorsOf` over a child list. -/
def anchorsOfList : List Node → List String
  | [] => []
  | n :: t => anchorsOf n ++ anchorsOfList t

end

/-- The anchors found under (not including) a node, which is how
`main.find_all("a", href=True)` searches the content region. -/
def anchorsUnder : Node → List String
  | Node.textNode _ => []
  | Node.elem _ _ cs => anchorsOfList cs

/-- Direct children removed by the decoration-stripping loop
`for tag in main.find_all(["div", "span"], recursive=False): tag.extract()`. -/
def isDecor : Node → Bool
  | Node.textNode _ => false
  | Node.elem tag _ _ => tag = "div" || tag = "span"

/-- The content region after the decoration-stripping loop: the direct `div`
and `span` children are gone, everything else is untouched. -/
def stripDecor : Node → Node
  | Node.textNode s => Node.textNode s
  | Node.elem tag href cs => Node.elem tag href (cs.filter (fun c => !(isDecor c)))

/-- `main.get_text(separator="\n").strip()` followed by
`[ln.strip() for ln in text.splitlines() if ln.strip()]`: the nonempty
stripped lines of the region's text. -/
def mainLines (main : Node) : List String :=
  ((((pyStrip (String.intercalate "\n" (textsOf main))).splitOn "\n").map
    pyStrip).filter (fun l => l ≠ ""))

/-- The parse stage of `get_structured_content` on the located
`div#main-content` region: strip the decoration children, then derive the
lines, the link targets, and the structured fields. -/
def structureMain (main : Node) : Structured :=
  structureLines (mainLines (stripDecor main)) (anchorsUnder (stripDecor main))

/-- `get_structured_content(url)` at its fetch boundary: `none` abstracts the
two empty-dict early returns (fetch failed / falsy response, and no
`div#main-content` in the page); otherwise the located region is parsed. -/
def get_structured_content (page : Option Node) : Option Structured :=
  page.map structureMain

theorem cleanBodyGo_started (l : List String) : cleanBodyGo true l = l := by
  induction l with
  | nil => rfl
  | cons line rest ih => simp [cleanBodyGo, ih]

theorem cleanBody_drop (header rest : List String) (r : String)
    (hh : ∀ l ∈ header, (hasTok l "看板" || hasTok l "時間") = true)
    (hr : (hasTok r "看板" || hasTok r "時間") = false) :
    cleanBody (header ++ r :: rest) = r :: rest := by
  induction header with
  | nil =>
    simp only [List.nil_append, cleanBody, cleanBodyGo]
    rw [if_neg (by simp), if_neg (by simp [hr]), cleanBodyGo_started]
  | cons h t ih =>
    have hh0 : (hasTok h "看板" || hasTok h "時間") = true :=
      hh h (List.mem_cons_self h t)
    have iht := ih (fun l hl => hh l (List.mem_cons_of_mem h hl))
    simp only [List.cons_append, cleanBody, cleanBodyGo]
    rw [if_neg (by simp), if_pos hh0]
    exact iht

/-- C5: when the provisional body lines of a post decompose as leading header
lines that all contain the Board (`看板`) or Time (`時間`) token, followed by
a first real line `r` (containing neither token) and arbitrary further lines,
the extractor drops exactly the leading token-bearing lines: the cleaned body
is `r :: rest` — every later line is kept, including ones that contain the
tokens again — and the `content` field is those lines joined by single
newlines (the hypothesis `htrim` records that the joined real content carries
no surrounding whitespace, which holds for the pipeline's pre-stripped
lines). -/
theorem content_extractor_drops_leading_header
    (lines urls : List String) (header rest : List String) (r : String)
    (hb : (classifyLines lines).2.2 = header ++ r :: rest)
    (hh : ∀ l ∈ header, (hasTok l "看板" || hasTok l "時間") = true)
    (hr : (hasTok r "看板" || hasTok r "時間") = false)
    (htrim : pyStrip (String.intercalate "\n" (r :: rest))
      = String.intercalate "\n" (r :: rest)) :
    cleanBody ((classifyLines lines).2.2) = r :: rest ∧
    (structureLines lines urls).content = String.intercalate "\n" (r :: rest) := by
  have hclean : cleanBody ((classifyLines lines).2.2) = r :: rest := by
    rw [hb]
    exact cleanBody_drop header rest r hh hr
  refine ⟨hclean, ?_⟩
  simp only [structureLines]
  rw [hclean, htrim]

/-- Witness for C5: a synthetic post whose body opens with a Board line and a
Time line, followed by three real lines, the middle one containing the Board
token again; the content keeps exactly the three lines. -/
theorem content_extractor_boundary_witness :
    (structureLines
        ["作者: someone", "看板Stock", "時間Mon", "first line", "看板again", "third line"]
        []).content
      = String.intercalate "\n" ["first line", "看板again", "third line"] :=
  (content_extractor_drops_leading_header
    ["作者: someone", "看板Stock", "時間Mon", "first line", "看板again", "third line"]
    [] ["看板Stock", "時間Mon"] ["看板again", "third line"] "first line"
    (by decide) (by decide) (by decide) (by decide)).2

theorem anchorsOfList_sublist {l₁ l₂ : List Node} (h : List.Sublist l₁ l₂) :
    List.Sublist (anchorsOfList l₁) (anchorsOfList l₂) := by
  induction h with
  | slnil => exact List.Sublist.refl _
  | cons n _ ih =>
    exact ih.trans (by simp [anchorsOfList])
  | cons₂ n _ ih =>
    simpa [anchorsOfList] using (List.Sublist.refl (anchorsOf n)).append ih

/-- C6 (amended): the `urls` field is exactly the list of link targets found
in the content region AFTER the decoration-stripping pass removed the direct
`div`/`span` children, in document order with duplicates kept; it is
therefore an order-preserving subsequence of the original region's link
targets, and anchors inside the stripped decoration blocks are excluded.  (A
post with 3 anchors yields 3 urls exactly when all 3 lie outside the stripped
blocks.) -/
theorem urls_from_stripped_region (main : Node) :
    (structureMain main).urls = anchorsUnder (stripDecor main) ∧
    List.Sublist (structureMain main).urls (anchorsUnder main) := by
  refine ⟨rfl, ?_⟩
  match main with
  | Node.textNode s => exact List.Sublist.refl _
  | Node.elem tag href cs =>
    show List.Sublist (anchorsOfList (cs.filter (fun c => !(isDecor c)))) (anchorsOfList cs)
    exact anchorsOfList_sublist (List.filter_sublist cs)

/-- A concrete post region: a decoration `div` holding an anchor `u1`, a text
node, a direct anchor `u2`, and a paragraph holding an anchor `u3`. -/
def egMain : Node :=
  Node.elem "div" none
    [Node.elem "div" none [Node.elem "a" (some "u1") []],
     Node.textNode "hello world",
     Node.elem "a" (some "u2") [Node.textNode "link2"],
     Node.elem "p" none [Node.elem "a" (some "u3") []]]

/-- Counterexample for C6 as stated: `egMain` contains 3 anchors, but the
`urls` field has length 2 — the anchor `u1` inside the direct-child
decoration `div` is extracted before the link collection runs, so it is
missing, contradicting "every link target found anywhere in the original
main content region". -/
theorem urls_miss_decoration_anchor :
    (anchorsUnder egMain).length = 3 ∧
    ((structureMain egMain).urls).length = 2 ∧
    "u1" ∈ anchorsUnder egMain ∧ "u1" ∉ (structureMain egMain).urls := by
  refine ⟨rfl, rfl, by decide, by decide⟩

/-- One row of the append-only content table
(`<board>_content.csv`), with the `urls` column already joined by `"|"` as
the source writes it. -/
structure ContentRow where
  title : String
  date : String
  link : String
  nrec : String
  source : String
  content : String
  urls : String
deriving DecidableEq

/-- The link column of the content table, from which the dedup set
`existing_links` is built. -/
def links (table : List ContentRow) : List String :=
  table.map ContentRow.link

/-- The record assembly inside the persister loop: listing fields are copied,
extractor fields come from `structured.get(..., default)` — the empty string
(and the empty url sequence, `"|".join([]) = ""`) when the fetch or parse
produced the empty dict. -/
def assembleRecord (r : ListingRecord) (structured : Option Structured) : ContentRow :=
  { title := r.title
    date := r.date
    link := r.link
    nrec := r.nrec
    source := (structured.map Structured.source).getD ""
    content := (structured.map Structured.content).getD ""
    urls := (structured.map (fun st => String.intercalate "|" st.urls)).getD "" }

/-- `crawl_ptt_post_content(filtered_data)`: build the exclusion set from the
existing table's links, restrict the input to the listings whose link is not
in it (`~filtered_data["link"].isin(existing_links)`), and append one
assembled row per remaining listing in order.  `pages` is the fetch/parse
oracle: the `div#main-content` region of each post page, or `none` when the
fetch fails or the region is missing. -/
def crawl_ptt_post_content (pages : String → Option Node)
    (filtered : List ListingRecord) (table : List ContentRow) : List ContentRow :=
  let existing := links table
  let toCrawl := filtered.filter (fun r => !(decide (r.link ∈ existing)))
  table ++ toCrawl.map (fun r => assembleRecord r (get_structured_content (pages r.link)))

theorem links_crawl (pages : String → Option Node)
    (filtered : List ListingRecord) (table : List ContentRow) (r : ListingRecord)
    (hr : r ∈ filtered) :
    r.link ∈ links (crawl_ptt_post_content pages filtered table) := by
  simp only [crawl_ptt_post_content, links, List.map_append, List.mem_append, List.map_map]
  by_cases hmem : r.link ∈ links table
  · exact Or.inl (by simpa [links] using hmem)
  · refine Or.inr ?_
    refine List.mem_map.mpr ?_
    refine ⟨r, ?_, rfl⟩
    exact List.mem_filter.mpr ⟨hr, by simpa [links] using hmem⟩

/-- C3: running the persister a second time on the same qualifying listing
collection, starting from the table the first run produced, appends zero new
rows — the table is unchanged and in particular its row count is unchanged —
whatever the fetch oracle returns in either run.  Every link of the
qualifying collection is in the dedup set after run 1, so run 2's crawl list
is empty. -/
theorem persister_idempotent (pages1 pages2 : String → Option Node)
    (filtered : List ListingRecord) (table : List ContentRow) :
    crawl_ptt_post_content pages2 filtered (crawl_ptt_post_content pages1 filtered table)
      = crawl_ptt_post_content pages1 filtered table ∧
    (crawl_ptt_post_content pages2 filtered
        (crawl_ptt_post_content pages1 filtered table)).length
      = (crawl_ptt_post_content pages1 filtered table).length := by
  have hempty : filtered.filter
      (fun r => !(decide (r.link ∈ links (crawl_ptt_post_content pages1 filtered table))))
      = [] := by
    rw [List.filter_eq_nil_iff]
    intro r hr
    simp [links_crawl pages1 filtered table r hr]
  have hfix : crawl_ptt_post_content pages2 filtered
      (crawl_ptt_post_content pages1 filtered table)
      = crawl_ptt_post_content pages1 filtered table := by
    conv_lhs => rw [crawl_ptt_post_content]
    rw [hempty]
    simp
  exact ⟨hfix, by rw [hfix]⟩

/-- C10: when fetching or parsing a post fails entirely (`pages r.link =
none`) and the post's link is not yet in the table, the persister still
appends exactly one row for it, with empty `source`, `content` and `urls`
columns; the link thereby enters the dedup set, so a later run — with any
fetch behavior, including one that would now succeed — appends nothing for
it: the post is never refetched even though no content was captured. -/
theorem persister_records_failed_fetch (pages : String → Option Node)
    (r : ListingRecord) (table : List ContentRow)
    (hfetch : pages r.link = none)
    (hnew : r.link ∉ links table) :
    crawl_ptt_post_content pages [r] table
      = table ++ [{ title := r.title, date := r.date, link := r.link, nrec := r.nrec,
                    source := "", content := "", urls := "" }] ∧
    r.link ∈ links (crawl_ptt_post_content pages [r] table) ∧
    (∀ pages2, crawl_ptt_post_content pages2 [r] (crawl_ptt_post_content pages [r] table)
      = crawl_ptt_post_content pages [r] table) := by
  have h1 : crawl_ptt_post_content pages [r] table
      = table ++ [{ title := r.title, date := r.date, link := r.link, nrec := r.nrec,
                    source := "", content := "", urls := "" }] := by
    simp [crawl_ptt_post_content, List.filter, hfetch, get_structured_content,
      assembleRecord, hnew]
  refine ⟨h1, links_crawl pages [r] table r (by simp), ?_⟩
  intro pages2
  exact (persister_idempotent pages pages2 [r] table).1

/-- Witness for C10: one listing whose fetch fails, persisted into an empty
table — the appended row has the listing's metadata and empty extraction
columns, and a rerun changes nothing. -/
theorem persister_records_failed_fetch_witness :
    crawl_ptt_post_content (fun _ => none) [⟨"t", "d", "l", "55"⟩] []
      = [{ title := "t", date := "d", link := "l", nrec := "55",
           source := "", content := "", urls := "" }] ∧
    crawl_ptt_post_content (fun _ => none) [⟨"t", "d", "l", "55"⟩]
        (crawl_ptt_post_content (fun _ => none) [⟨"t", "d", "l", "55"⟩] [])
      = crawl_ptt_post_content (fun _ => none) [⟨"t", "d", "l", "55"⟩] [] := by
  have h := persister_records_failed_fetch (fun _ => none) ⟨"t", "d", "l", "55"⟩ []
    rfl (by simp [links])
  exact ⟨h.1, h.2.2 (fun _ => none)⟩

end PttCrawler
